import Mathlib

/-!
Verification development for the Falcon inference backend.

The definitions below are a shallow embedding of the resilience layer of the
service: the circuit breaker state machine (`app/utils/circuit_breaker.py`),
the exponential-backoff retry helper (`app/utils/retry.py`), the bounded
fallback log buffer and its flush routine (`app/services/database_service.py`),
the Redis cache / idempotency adapters (`app/services/redis_service.py`),
input hashing and normalization (`app/utils/hashing.py`), request validation
(`app/models/schemas.py`), and the request orchestration pipeline
(`app/api/routes.py`).

Modelling conventions:
* wall-clock times (`time.time()`) are integers threaded explicitly;
* Python exceptions are values of an error type, and a fallible call is an
  `Except` value; a `try/except` block is a `match` on that value;
* the SHA-256 digest in `hash_input` is modelled by the serialized payload
  itself (the digest is used only up to equality, and SHA-256 is injective
  for the purposes of the cache);
* Python's dynamic calling convention is kept where it matters: a value
  passed where a callable is expected may be a *coroutine object*, and
  calling a coroutine object raises `TypeError` (this is exactly what happens
  at every `circuit_breaker.call(retry_with_backoff(op, ...), ...)` site in
  the services).
-/

namespace Falcon

/-! ## Circuit breaker (`app/utils/circuit_breaker.py`) -/

/-- `CircuitBreakerState`: CLOSED / OPEN / HALF_OPEN.  (`opened` stands for
the Python member `OPEN`; `open` is a Lean keyword.) -/
inductive CBState where
  | closed
  | opened
  | halfOpen
deriving DecidableEq, Repr

/-- The mutable fields and configuration of a `CircuitBreaker` instance. -/
structure Breaker where
  state : CBState
  failureCount : Nat
  successCount : Nat
  lastFailureTime : Option Int
  failureThreshold : Nat
  timeoutSeconds : Int
  halfOpenAttempts : Nat
deriving DecidableEq, Repr

/-- `CircuitBreaker.__init__`: fresh breaker, CLOSED with zero counters. -/
def Breaker.init (failureThreshold : Nat) (timeoutSeconds : Int)
    (halfOpenAttempts : Nat) : Breaker :=
  { state := .closed
    failureCount := 0
    successCount := 0
    lastFailureTime := none
    failureThreshold := failureThreshold
    timeoutSeconds := timeoutSeconds
    halfOpenAttempts := halfOpenAttempts }

/-- `CircuitBreaker._update_state`.  In the OPEN branch the Python guard is
`if self.last_failure_time and time.time() - self.last_failure_time >=
self.timeout_seconds`: the first conjunct is Python truthiness, so a stored
time equal to `0` is treated like `None`. -/
def updateState (now : Int) (b : Breaker) : Breaker :=
  match b.state with
  | .opened =>
    match b.lastFailureTime with
    | some lf =>
      if lf ≠ 0 ∧ now - lf ≥ b.timeoutSeconds then
        { b with state := .halfOpen, successCount := 0 }
      else b
    | none => b
  | .halfOpen =>
    if b.successCount ≥ b.halfOpenAttempts then
      { b with state := .closed, failureCount := 0 }
    else b
  | .closed => b

/-- `CircuitBreaker._on_success`. -/
def onSuccess (b : Breaker) : Breaker :=
  match b.state with
  | .halfOpen => { b with successCount := b.successCount + 1 }
  | .closed => { b with failureCount := 0 }
  | .opened => b

/-- `CircuitBreaker._on_failure`: increment `failure_count`, set
`last_failure_time = now`; then HALF_OPEN transitions to OPEN, and otherwise
(CLOSED or OPEN) the state becomes OPEN when
`failure_count >= failure_threshold`. -/
def onFailure (now : Int) (b : Breaker) : Breaker :=
  let b' := { b with failureCount := b.failureCount + 1, lastFailureTime := some now }
  match b'.state with
  | .halfOpen => { b' with state := .opened }
  | _ =>
    if b'.failureCount ≥ b'.failureThreshold then { b' with state := .opened }
    else b'

/-- `k` consecutive recorded failures starting from `b`, the `i`-th at time
`times i`. -/
def failIter (times : Nat → Int) (b : Breaker) : Nat → Breaker
  | 0 => b
  | k + 1 => onFailure (times k) (failIter times b k)

/-- Events that touch a breaker's bookkeeping: a recorded failure at a given
time, a recorded success, and the time-based state evaluation performed at
the start of `call`. -/
inductive CBEvent where
  | fail (t : Int)
  | succ
  | upd (t : Int)
deriving DecidableEq, Repr

/-- Whether an event is a recorded failure. -/
def CBEvent.isFail : CBEvent → Bool
  | .fail _ => true
  | _ => false

/-- Run a sequence of breaker events left to right. -/
def runEvents : List CBEvent → Breaker → Breaker
  | [], b => b
  | .fail t :: es, b => runEvents es (onFailure t b)
  | .succ :: es, b => runEvents es (onSuccess b)
  | .upd t :: es, b => runEvents es (updateState t b)

lemma onFailure_failureCount (t : Int) (b : Breaker) :
    (onFailure t b).failureCount = b.failureCount + 1 := by
  unfold onFailure
  cases b.state <;> simp <;> split <;> rfl

lemma onFailure_lastFailureTime (t : Int) (b : Breaker) :
    (onFailure t b).lastFailureTime = some t := by
  unfold onFailure
  cases b.state <;> simp <;> split <;> rfl

lemma onFailure_config (t : Int) (b : Breaker) :
    (onFailure t b).failureThreshold = b.failureThreshold ∧
    (onFailure t b).timeoutSeconds = b.timeoutSeconds := by
  unfold onFailure
  cases b.state <;> simp <;> split <;> simp

lemma onFailure_closed_lt (t : Int) (b : Breaker)
    (hs : b.state = .closed) (hlt : b.failureCount + 1 < b.failureThreshold) :
    (onFailure t b).state = .closed := by
  unfold onFailure
  rw [hs]
  simp only []
  rw [if_neg (by omega)]

lemma onFailure_closed_ge (t : Int) (b : Breaker)
    (hs : b.state = .closed) (hge : b.failureThreshold ≤ b.failureCount + 1) :
    (onFailure t b).state = .opened := by
  unfold onFailure
  rw [hs]
  simp only []
  rw [if_pos (by omega)]

lemma failIter_threshold_eq (times : Nat → Int) (b : Breaker) :
    ∀ k, (failIter times b k).failureThreshold = b.failureThreshold := by
  intro k
  induction k with
  | zero => rfl
  | succ n ih =>
    show (onFailure (times n) (failIter times b n)).failureThreshold = _
    rw [(onFailure_config _ _).1, ih]

lemma failIter_closed_count (times : Nat → Int) (b : Breaker)
    (hs : b.state = .closed) (hc : b.failureCount = 0) :
    ∀ k, k < b.failureThreshold →
      (failIter times b k).state = .closed ∧ (failIter times b k).failureCount = k := by
  intro k
  induction k with
  | zero => intro _; exact ⟨hs, hc⟩
  | succ n ih =>
    intro hk
    have hn := ih (Nat.lt_of_succ_lt hk)
    constructor
    · show (onFailure (times n) (failIter times b n)).state = .closed
      apply onFailure_closed_lt _ _ hn.1
      rw [hn.2, failIter_threshold_eq]
      exact hk
    · show (onFailure (times n) (failIter times b n)).failureCount = n + 1
      rw [onFailure_failureCount, hn.2]

lemma failIter_threshold (times : Nat → Int) (b : Breaker)
    (hs : b.state = .closed) (hc : b.failureCount = 0)
    (ht : 0 < b.failureThreshold) :
    (failIter times b b.failureThreshold).state = .opened := by
  obtain ⟨n, hn⟩ : ∃ n, b.failureThreshold = n + 1 :=
    ⟨b.failureThreshold - 1, by omega⟩
  rw [hn]
  show (onFailure (times n) (failIter times b n)).state = .opened
  have hprev := failIter_closed_count times b hs hc n (by omega)
  apply onFailure_closed_ge _ _ hprev.1
  rw [hprev.2, failIter_threshold_eq]
  omega

lemma onSuccess_keeps (b : Breaker) :
    (onSuccess b).lastFailureTime = b.lastFailureTime ∧
    (onSuccess b).timeoutSeconds = b.timeoutSeconds := by
  unfold onSuccess
  cases b.state <;> exact ⟨rfl, rfl⟩

lemma updateState_keeps (t : Int) (b : Breaker) :
    (updateState t b).lastFailureTime = b.lastFailureTime ∧
    (updateState t b).timeoutSeconds = b.timeoutSeconds := by
  rcases b with ⟨s, fc, sc, lf, th, ts, ha⟩
  refine ⟨?_, ?_⟩ <;> cases s <;> cases lf <;>
    simp only [updateState] <;> (try split) <;> rfl

lemma runEvents_noFail_keeps (es : List CBEvent) (b : Breaker)
    (hno : ∀ e ∈ es, e.isFail = false) :
    (runEvents es b).lastFailureTime = b.lastFailureTime ∧
    (runEvents es b).timeoutSeconds = b.timeoutSeconds := by
  induction es generalizing b with
  | nil => exact ⟨rfl, rfl⟩
  | cons e es ih =>
    have he := hno e (List.mem_cons_self e es)
    have hrest : ∀ e ∈ es, e.isFail = false := fun e h => hno e (List.mem_cons_of_mem _ h)
    cases e with
    | fail t => simp [CBEvent.isFail] at he
    | succ =>
      have h := ih (onSuccess b) hrest
      exact ⟨h.1.trans (onSuccess_keeps b).1, h.2.trans (onSuccess_keeps b).2⟩
    | upd t =>
      have h := ih (updateState t b) hrest
      exact ⟨h.1.trans (updateState_keeps t b).1, h.2.trans (updateState_keeps t b).2⟩

lemma updateState_opened_halfOpen (now : Int) (c : Breaker) (tf : Int)
    (hs : c.state = .opened) (hlf : c.lastFailureTime = some tf)
    (h : (updateState now c).state = .halfOpen) :
    tf + c.timeoutSeconds ≤ now := by
  rcases c with ⟨s, fc, sc, lf, th, ts, ha⟩
  simp only at hs hlf ⊢
  subst hs
  subst hlf
  simp only [updateState] at h
  by_cases hcond : tf ≠ 0 ∧ now - tf ≥ ts
  · omega
  · rw [if_neg hcond] at h
    simp at h

/-- An example breaker stuck in HALF_OPEN after one successful probe
(`failure_threshold=5, timeout_seconds=60, half_open_attempts=3`, one success
recorded since entering HALF_OPEN). -/
def halfOpenProbe : Breaker :=
  { state := .halfOpen
    failureCount := 5
    successCount := 1
    lastFailureTime := some 100
    failureThreshold := 5
    timeoutSeconds := 60
    halfOpenAttempts := 3 }

/-- An example breaker sitting OPEN since a failure at time 100
(`failure_threshold=5, timeout_seconds=60, half_open_attempts=3`). -/
def openSince100 : Breaker :=
  { state := .opened
    failureCount := 5
    successCount := 1
    lastFailureTime := some 100
    failureThreshold := 5
    timeoutSeconds := 60
    halfOpenAttempts := 3 }

/-- C3: from a Closed breaker with `failureCount = 0` (and a positive
threshold), fewer than `failureThreshold` consecutive recorded failures leave
the state Closed, exactly `failureThreshold` of them make it Open, and every
recorded failure increments `failureCount` and stamps `lastFailureTime` with
the time of that failure. -/
theorem closed_breaker_opens_at_failure_threshold (b : Breaker) (times : Nat → Int)
    (hs : b.state = .closed) (hc : b.failureCount = 0)
    (ht : 0 < b.failureThreshold) :
    (∀ k, k < b.failureThreshold → (failIter times b k).state = .closed) ∧
    (failIter times b b.failureThreshold).state = .opened ∧
    (∀ k, (failIter times b (k + 1)).failureCount
            = (failIter times b k).failureCount + 1 ∧
          (failIter times b (k + 1)).lastFailureTime = some (times k)) := by
  refine ⟨fun k hk => (failIter_closed_count times b hs hc k hk).1,
          failIter_threshold times b hs hc ht, fun k => ⟨?_, ?_⟩⟩
  · exact onFailure_failureCount (times k) (failIter times b k)
  · exact onFailure_lastFailureTime (times k) (failIter times b k)

/-- Witness for C3 at a concrete breaker with threshold 2: two failures
(at times 10 and 20) open the circuit, one leaves it closed. -/
theorem closed_breaker_opens_at_failure_threshold_witness :
    (Breaker.init 2 60 3).state = .closed ∧ (Breaker.init 2 60 3).failureCount = 0 ∧
    0 < (Breaker.init 2 60 3).failureThreshold ∧
    (failIter (fun k => 10 * (k + 1)) (Breaker.init 2 60 3) 1).state = .closed ∧
    (failIter (fun k => 10 * (k + 1)) (Breaker.init 2 60 3) 2).state = .opened := by
  have h := closed_breaker_opens_at_failure_threshold (Breaker.init 2 60 3)
    (fun k => 10 * (k + 1)) rfl rfl (by decide)
  exact ⟨rfl, rfl, by decide, h.1 1 (by decide), h.2.1⟩

/-- C4 counterexample: a failure recorded while HALF_OPEN (with one probe
success already counted) transitions the breaker to OPEN but leaves the
half-open success count at 1, not 0 — `_on_failure` never touches
`success_count`; it is zeroed only on the next OPEN → HALF_OPEN transition
inside `_update_state`. -/
theorem halfopen_reopen_success_count_not_reset :
    (onFailure 200 halfOpenProbe).state = .opened ∧
    ¬ (onFailure 200 halfOpenProbe).successCount = 0 := by
  decide

/-- C4 (amended): a single recorded failure while HalfOpen immediately
transitions the breaker to Open; the half-open success count is left
unchanged at that moment, and it is reset to zero whenever the breaker next
transitions from Open to HalfOpen (so every HalfOpen phase still begins
with a zero success count). -/
theorem halfopen_failure_reopens (b : Breaker) (t : Int)
    (hb : b.state = .halfOpen) (b2 : Breaker) (now : Int)
    (h2 : b2.state = .opened) :
    (onFailure t b).state = .opened ∧
    (onFailure t b).successCount = b.successCount ∧
    ((updateState now b2).state = .halfOpen →
      (updateState now b2).successCount = 0) := by
  refine ⟨?_, ?_, ?_⟩
  · unfold onFailure
    rw [hb]
  · unfold onFailure
    rw [hb]
  · intro h
    rcases b2 with ⟨s, fc, sc, lf, th, ts, ha⟩
    simp only at h2
    subst h2
    simp only [updateState] at h ⊢
    cases lf with
    | none => simp at h
    | some tf =>
      split at h
      · split
        · rfl
        · simp_all
      · simp at h

/-- Witness for C4's amended statement: the HALF_OPEN probe breaker reopens
on failure, keeps its success count, and the OPEN breaker entering HALF_OPEN
at time 200 starts with a zero success count. -/
theorem halfopen_failure_reopens_witness :
    halfOpenProbe.state = .halfOpen ∧ openSince100.state = .opened ∧
    ((onFailure 200 halfOpenProbe).state = .opened ∧
     (onFailure 200 halfOpenProbe).successCount = halfOpenProbe.successCount ∧
     ((updateState 200 openSince100).state = .halfOpen →
       (updateState 200 openSince100).successCount = 0)) :=
  ⟨rfl, rfl, halfopen_failure_reopens halfOpenProbe 200 rfl openSince100 200 rfl⟩

/-- C10: every recorded failure stamps `lastFailureTime` with the current
time regardless of the breaker's state, and after the most recent recorded
failure (at time `tf`, followed by any failure-free sequence of successes
and state evaluations) an Open breaker passes `_update_state`'s check into
HalfOpen only once `tf + timeout_seconds ≤ now` — so a failure recorded
while already Open restarts the open cooldown window. -/
theorem failure_restarts_open_cooldown (b0 : Breaker) (es : List CBEvent)
    (tf now : Int) (hno : ∀ e ∈ es, e.isFail = false) :
    (∀ (t : Int) (b : Breaker), (onFailure t b).lastFailureTime = some t) ∧
    (runEvents es (onFailure tf b0)).lastFailureTime = some tf ∧
    ((runEvents es (onFailure tf b0)).state = .opened →
      (updateState now (runEvents es (onFailure tf b0))).state = .halfOpen →
      tf + (runEvents es (onFailure tf b0)).timeoutSeconds ≤ now) := by
  have hkeep := runEvents_noFail_keeps es (onFailure tf b0) hno
  have hlf : (runEvents es (onFailure tf b0)).lastFailureTime = some tf :=
    hkeep.1.trans (onFailure_lastFailureTime tf b0)
  exact ⟨onFailure_lastFailureTime, hlf,
    fun hs h => updateState_opened_halfOpen now _ tf hs hlf h⟩

/-- Witness for C10: a failure at time 100 while already OPEN, followed by a
success and a state evaluation at time 130, keeps `lastFailureTime = 100`. -/
theorem failure_restarts_open_cooldown_witness :
    (∀ e ∈ [CBEvent.succ, CBEvent.upd 130], e.isFail = false) ∧
    (runEvents [CBEvent.succ, CBEvent.upd 130]
      (onFailure 100 openSince100)).lastFailureTime = some 100 :=
  ⟨by decide,
   (failure_restarts_open_cooldown openSince100 [CBEvent.succ, CBEvent.upd 130]
      100 130 (by decide)).2.1⟩

/-! ## Retry with exponential backoff (`app/utils/retry.py`) -/

/-- Outcome of one `retry_with_backoff` run: the final result (`.error none`
is the unreachable `RuntimeError` raised when no attempt ever ran;
`.error (some e)` re-raises the last caught exception `e` unchanged), the
sleeps performed in order (milliseconds), and the number of attempts made. -/
structure RetryResult (ε α : Type) where
  result : Except (Option ε) α
  delays : List Nat
  attempts : Nat
deriving Repr

/-- The `for attempt in range(max_attempts)` loop of `retry_with_backoff`.
`op i` is the outcome of attempt `i` (0-based), `fuel` the attempts left.
A non-retryable exception escapes the `except exceptions` clause and
propagates out of the whole loop immediately. -/
def retryGo (op : Nat → Except ε α) (retryable : ε → Bool)
    (baseDelayMs maxDelayMs expBase : Nat) :
    Nat → Nat → Option ε → RetryResult ε α
  | _, 0, last => ⟨.error last, [], 0⟩
  | i, fuel + 1, _ =>
    match op i with
    | .ok a => ⟨.ok a, [], 1⟩
    | .error e =>
      if retryable e then
        if 0 < fuel then
          let d := min (baseDelayMs * expBase ^ i) maxDelayMs
          let r := retryGo op retryable baseDelayMs maxDelayMs expBase (i + 1) fuel (some e)
          ⟨r.result, d :: r.delays, r.attempts + 1⟩
        else ⟨.error (some e), [], 1⟩
      else ⟨.error (some e), [], 1⟩

/-- `retry_with_backoff` with its configuration already resolved (the Python
`max_attempts or settings...` defaulting happens before the loop). With
retries globally disabled it runs the operation exactly once. -/
def retry_with_backoff (enabled : Bool) (op : Nat → Except ε α)
    (retryable : ε → Bool) (maxAttempts baseDelayMs maxDelayMs expBase : Nat) :
    RetryResult ε α :=
  if enabled then
    retryGo op retryable baseDelayMs maxDelayMs expBase 0 maxAttempts none
  else
    match op 0 with
    | .ok a => ⟨.ok a, [], 1⟩
    | .error e => ⟨.error (some e), [], 1⟩

/-- C5: with `maxAttempts=3, baseDelay=100ms, multiplier=2, maxDelay=5000ms`,
an operation that always fails with a retryable exception is attempted
exactly 3 times with sleeps of exactly 100ms then 200ms
(`min(base * mult^i, maxDelay)` after failed attempt `i`, none after the
final attempt) and the last failure is re-raised unchanged; an operation
whose failure kind is not retryable propagates immediately after 1 attempt
with no sleeping. -/
theorem retry_schedule_three_attempts {ε α : Type}
    (op : Nat → Except ε α) (f : Nat → ε) (retryable : ε → Bool)
    (hop : ∀ i, op i = .error (f i)) (hr : ∀ i, retryable (f i) = true) :
    retry_with_backoff true op retryable 3 100 5000 2
      = ⟨.error (some (f 2)), [100, 200], 3⟩ ∧
    (∀ (e : ε) (op2 : Nat → Except ε α), retryable e = false →
      op2 0 = .error e →
      retry_with_backoff true op2 retryable 3 100 5000 2
        = ⟨.error (some e), [], 1⟩) := by
  constructor
  · simp [retry_with_backoff, retryGo, hop, hr]
  · intro e op2 hne hop2
    simp [retry_with_backoff, retryGo, hop2, hne]

/-- Witness for C5: the always-failing operation with error code `7` is
retried on schedule; error code `3` is non-retryable and propagates at
once. -/
theorem retry_schedule_three_attempts_witness :
    ((fun _ => Except.error 7 : Nat → Except Nat Unit) 0 = .error 7) ∧
    retry_with_backoff true (fun _ => Except.error 7 : Nat → Except Nat Unit)
        (fun e => decide (e % 2 = 1)) 3 100 5000 2
      = ⟨.error (some 7), [100, 200], 3⟩ ∧
    retry_with_backoff true (fun _ => Except.error 4 : Nat → Except Nat Unit)
        (fun e => decide (e % 2 = 1)) 3 100 5000 2
      = ⟨.error (some 4), [], 1⟩ := by
  have h := retry_schedule_three_attempts
    (fun _ => Except.error 7 : Nat → Except Nat Unit) (fun _ => 7)
    (fun e => decide (e % 2 = 1)) (fun _ => rfl) (by intro i; simp)
  exact ⟨rfl, h.1, h.2 4 (fun _ => Except.error 4) (by simp) rfl⟩

/-! ## Fallback log buffer (`app/services/database_service.py`) -/

/-- A `collections.deque` append with a `maxlen` bound: when the deque is
full the oldest (leftmost) entry is evicted to make room. -/
def dequeAppend (maxlen : Nat) (buf : List ρ) (x : ρ) : List ρ :=
  if buf.length < maxlen then buf ++ [x] else buf.tail ++ [x]

/-- The in-memory log state of `DatabaseService`: the bounded deque of
buffered records, the `dropped_logs_total` counter, and the
`buffer_enabled` ("buffer active") flag. -/
structure LogBuffer (ρ : Type) where
  buf : List ρ
  dropped : Nat
  bufferEnabled : Bool
  maxlen : Nat
deriving DecidableEq, Repr

/-- `DatabaseService.__init__` buffer state: empty deque with
`maxlen = 1000` by default, buffering inactive. -/
def LogBuffer.init (maxlen : Nat) : LogBuffer ρ :=
  { buf := [], dropped := 0, bufferEnabled := false, maxlen := maxlen }

/-- The `_fallback` of `log_inference_request`: if the buffer is full, count
a dropped entry (the deque append below then evicts the oldest); append the
record; mark buffering active. -/
def fallbackEnqueue (s : LogBuffer ρ) (x : ρ) : LogBuffer ρ :=
  { s with
    dropped := if s.buf.length ≥ s.maxlen then s.dropped + 1 else s.dropped
    buf := dequeAppend s.maxlen s.buf x
    bufferEnabled := true }

lemma dequeAppend_length_le (maxlen : Nat) (buf : List ρ) (x : ρ)
    (h : buf.length ≤ maxlen) (hm : 0 < maxlen) :
    (dequeAppend maxlen buf x).length ≤ maxlen := by
  unfold dequeAppend
  split
  · simp; omega
  · rcases buf with _ | ⟨y, ys⟩
    · simp at *; omega
    · simp at *; omega

lemma dequeAppend_not_full (maxlen : Nat) (buf : List ρ) (x : ρ)
    (h : buf.length < maxlen) : dequeAppend maxlen buf x = buf ++ [x] := by
  unfold dequeAppend
  rw [if_pos h]

/-- C6: the fallback buffer is a bounded drop-oldest FIFO.  An enqueue never
grows the deque past `maxlen`; enqueuing into a full buffer evicts the
oldest record and counts a drop; enqueuing into a non-full buffer appends
without dropping; and concretely, enqueuing records 1, 2, 3 into an empty
capacity-2 buffer leaves exactly `[2, 3]` with one drop counted. -/
theorem fallback_buffer_bounded_drop_oldest (s : LogBuffer ρ) (x : ρ)
    (hinv : s.buf.length ≤ s.maxlen) (hm : 0 < s.maxlen) :
    (fallbackEnqueue s x).buf.length ≤ s.maxlen ∧
    (s.buf.length = s.maxlen →
      (fallbackEnqueue s x).buf = s.buf.tail ++ [x] ∧
      (fallbackEnqueue s x).dropped = s.dropped + 1) ∧
    (s.buf.length < s.maxlen →
      (fallbackEnqueue s x).buf = s.buf ++ [x] ∧
      (fallbackEnqueue s x).dropped = s.dropped) ∧
    (fallbackEnqueue (fallbackEnqueue (fallbackEnqueue
        (LogBuffer.init (ρ := Nat) 2) 1) 2) 3).buf = [2, 3] ∧
    (fallbackEnqueue (fallbackEnqueue (fallbackEnqueue
        (LogBuffer.init (ρ := Nat) 2) 1) 2) 3).dropped = 1 := by
  refine ⟨dequeAppend_length_le s.maxlen s.buf x hinv hm, ?_, ?_, by decide, by decide⟩
  · intro hfull
    constructor
    · show dequeAppend s.maxlen s.buf x = s.buf.tail ++ [x]
      unfold dequeAppend
      rw [if_neg (by omega)]
    · show (if s.buf.length ≥ s.maxlen then s.dropped + 1 else s.dropped) = s.dropped + 1
      rw [if_pos (by omega)]
  · intro hlt
    constructor
    · exact dequeAppend_not_full s.maxlen s.buf x hlt
    · show (if s.buf.length ≥ s.maxlen then s.dropped + 1 else s.dropped) = s.dropped
      rw [if_neg (by omega)]

/-- Witness for C6: enqueuing into a one-slot-free capacity-2 buffer appends
without dropping. -/
theorem fallback_buffer_bounded_drop_oldest_witness :
    (fallbackEnqueue (LogBuffer.init (ρ := Nat) 2) 7).buf.length ≤ 2 ∧
    (fallbackEnqueue (fallbackEnqueue (fallbackEnqueue
        (LogBuffer.init (ρ := Nat) 2) 1) 2) 3).buf = [2, 3] :=
  ⟨(fallback_buffer_bounded_drop_oldest (LogBuffer.init 2) 7
      (by decide) (by decide)).1,
   (fallback_buffer_bounded_drop_oldest (LogBuffer.init (ρ := Nat) 2) 7
      (by decide) (by decide)).2.2.2.1⟩

lemma dequeAppend_length_le_succ (maxlen : Nat) (b : List ρ) (x : ρ) :
    (dequeAppend maxlen b x).length ≤ b.length + 1 := by
  unfold dequeAppend
  split
  · simp
  · rcases b with _ | ⟨y, ys⟩ <;> simp

lemma foldl_dequeAppend_length (maxlen : Nat) (l : List ρ) (b : List ρ) :
    (l.foldl (dequeAppend maxlen) b).length ≤ b.length + l.length := by
  induction l generalizing b with
  | nil => simp
  | cons a l ih =>
    calc ((a :: l).foldl (dequeAppend maxlen) b).length
        = (l.foldl (dequeAppend maxlen) (dequeAppend maxlen b a)).length := rfl
      _ ≤ (dequeAppend maxlen b a).length + l.length := ih _
      _ ≤ b.length + 1 + l.length := by
          have := dequeAppend_length_le_succ maxlen b a
          omega
      _ = b.length + (a :: l).length := by simp; omega

lemma foldl_dequeAppend_plain (maxlen : Nat) (l : List ρ) (b : List ρ)
    (h : b.length + l.length ≤ maxlen) :
    l.foldl (dequeAppend maxlen) b = b ++ l := by
  induction l generalizing b with
  | nil => simp
  | cons a l ih =>
    have h1 : b.length < maxlen := by simp at h; omega
    calc (a :: l).foldl (dequeAppend maxlen) b
        = l.foldl (dequeAppend maxlen) (dequeAppend maxlen b a) := rfl
      _ = l.foldl (dequeAppend maxlen) (b ++ [a]) := by
          rw [dequeAppend_not_full maxlen b a h1]
      _ = (b ++ [a]) ++ l := by
          apply ih
          simp at h ⊢
          omega
      _ = b ++ a :: l := by simp

/-- The `while self.log_buffer` loop of `flush_log_buffer`: pop the oldest
record, attempt its durable write (`writeOk`), and collect it into
`failed_logs` (in pop order) when the write fails.  `arr` schedules the
records that concurrent `_fallback` enqueues append to the deque while the
popped record's write is in flight (batch `i` lands after the `i`-th pop);
the loop keeps running until the deque is empty, so it also drains records
that arrive mid-flush.  Returns (records durably written, failed records in
pop order). -/
def flushLoop (writeOk : ρ → Bool) (maxlen : Nat) :
    List ρ → List (List ρ) → Nat × List ρ
  | [], _ => (0, [])
  | h :: rest, arr =>
    let buf' := (arr.headD []).foldl (dequeAppend maxlen) rest
    let r := flushLoop writeOk maxlen buf' arr.tail
    if writeOk h then (r.1 + 1, r.2) else (r.1, h :: r.2)
termination_by buf arr => buf.length + (arr.map List.length).sum + arr.length
decreasing_by
  rcases arr with _ | ⟨a, as⟩
  · simp
  · have hb := foldl_dequeAppend_length maxlen a rest
    simp only [List.headD, List.tail, List.map, List.sum_cons, List.length_cons] at *
    omega

/-- `DatabaseService.flush_log_buffer`: early-return 0 when buffering is
inactive or the deque is empty; otherwise drain the deque (with `arr` the
concurrently arriving batches), re-append the failed records onto the
(now-empty) deque in their pop order, clear `buffer_enabled` only when
nothing is left, and return the number of records durably written. -/
def flush_log_buffer (writeOk : ρ → Bool) (arr : List (List ρ))
    (s : LogBuffer ρ) : Nat × LogBuffer ρ :=
  if !s.bufferEnabled || s.buf.isEmpty then (0, s)
  else
    let r := flushLoop writeOk s.maxlen s.buf arr
    let buf' := r.2.foldl (dequeAppend s.maxlen) []
    (r.1, { s with
            buf := buf'
            bufferEnabled := if buf'.isEmpty then false else s.bufferEnabled })

lemma flushLoop_spec (writeOk : ρ → Bool) (maxlen : Nat) :
    ∀ (n : Nat) (buf : List ρ) (arr : List (List ρ)),
      buf.length + (arr.map List.length).sum + arr.length ≤ n →
      arr.length ≤ buf.length →
      buf.length + (arr.map List.length).sum ≤ maxlen →
      flushLoop writeOk maxlen buf arr
        = ((buf ++ arr.join).countP writeOk,
           (buf ++ arr.join).filter (fun r => ! writeOk r)) := by
  intro n
  induction n with
  | zero =>
    intro buf arr hn h1 h2
    have hb : buf = [] := by
      rcases buf with _ | ⟨x, xs⟩
      · rfl
      · simp at hn
    subst hb
    have ha : arr = [] := by
      rcases arr with _ | ⟨a, as⟩
      · rfl
      · simp at h1
    subst ha
    simp [flushLoop]
  | succ n ih =>
    intro buf arr hn h1 h2
    rcases buf with _ | ⟨h, rest⟩
    · have ha : arr = [] := by
        rcases arr with _ | ⟨a, as⟩
        · rfl
        · simp at h1
      subst ha
      simp [flushLoop]
    · rcases arr with _ | ⟨a, as⟩
      · -- no arrivals scheduled: one plain pop
        rw [flushLoop]
        simp only [List.headD, List.tail, List.foldl]
        have hrec := ih rest [] (by simp at hn ⊢; omega) (by simp)
          (by simp at h2 ⊢; omega)
        rw [hrec]
        cases hw : writeOk h <;>
          simp [hw, List.countP_cons, List.filter_cons]
      · -- arrival batch `a` lands during this pop's write
        rw [flushLoop]
        simp only [List.headD, List.tail]
        have hplain : a.foldl (dequeAppend maxlen) rest = rest ++ a := by
          apply foldl_dequeAppend_plain
          simp at h2
          omega
        rw [hplain]
        have hrec := ih (rest ++ a) as
          (by simp at hn ⊢; omega)
          (by simp at h1 ⊢; omega)
          (by simp at h2 ⊢; omega)
        rw [hrec]
        cases hw : writeOk h <;>
          simp [hw, List.countP_cons, List.filter_cons, List.join]

/-- C7: `flush_log_buffer` pops records oldest-first and attempts a durable
write for each (including the records that arrive mid-flush); the returned
count is exactly the number of records durably persisted; the records whose
write failed are re-enqueued in their original relative order, with the
originally buffered ones ahead of every record newly buffered during the
flush; and `buffer_enabled` is cleared exactly when the buffer ends up fully
drained.  (`arr` lists the batches enqueued concurrently, batch `i` landing
while the `i`-th popped record's write is in flight; the capacity hypothesis
keeps the deque from evicting mid-flush.) -/
theorem flush_persists_and_requeues_failed (writeOk : ρ → Bool)
    (arr : List (List ρ)) (s : LogBuffer ρ)
    (hen : s.bufferEnabled = true) (hne : s.buf ≠ [])
    (harr : arr.length ≤ s.buf.length)
    (hcap : s.buf.length + (arr.map List.length).sum ≤ s.maxlen) :
    (flush_log_buffer writeOk arr s).1 = (s.buf ++ arr.join).countP writeOk ∧
    (flush_log_buffer writeOk arr s).2.buf
      = (s.buf.filter fun r => ! writeOk r)
        ++ (arr.join.filter fun r => ! writeOk r) ∧
    (flush_log_buffer writeOk arr s).2.bufferEnabled
      = ! ((flush_log_buffer writeOk arr s).2.buf.isEmpty) := by
  have hloop := flushLoop_spec writeOk s.maxlen
    (s.buf.length + (arr.map List.length).sum + arr.length) s.buf arr
    le_rfl harr hcap
  have hguard : (!s.bufferEnabled || s.buf.isEmpty) = false := by
    rw [hen]
    simp [List.isEmpty_iff, hne]
  have hfail_len : ((s.buf ++ arr.join).filter fun r => ! writeOk r).length ≤ s.maxlen := by
    calc ((s.buf ++ arr.join).filter fun r => ! writeOk r).length
        ≤ (s.buf ++ arr.join).length := List.length_filter_le _ _
      _ ≤ s.maxlen := by
          have hj : arr.join.length = (arr.map List.length).sum :=
            List.length_join _
          simp only [List.length_append]
          omega
  have hreadd : ((s.buf ++ arr.join).filter fun r => ! writeOk r).foldl
      (dequeAppend s.maxlen) []
      = (s.buf ++ arr.join).filter fun r => ! writeOk r := by
    have := foldl_dequeAppend_plain s.maxlen
      ((s.buf ++ arr.join).filter fun r => ! writeOk r) [] (by simpa using hfail_len)
    simpa using this
  have hflush : flush_log_buffer writeOk arr s
      = ((s.buf ++ arr.join).countP writeOk,
         { s with
           buf := (s.buf ++ arr.join).filter fun r => ! writeOk r
           bufferEnabled :=
             if ((s.buf ++ arr.join).filter fun r => ! writeOk r).isEmpty
             then false else s.bufferEnabled }) := by
    unfold flush_log_buffer
    rw [hguard]
    simp only [Bool.false_eq_true, if_false, hloop, hreadd]
  rw [hflush]
  refine ⟨rfl, List.filter_append _ _, ?_⟩
  rw [hen]
  cases hem : ((s.buf ++ arr.join).filter fun r => ! writeOk r).isEmpty <;>
    simp [hem]

/-- Witness for C7: the buffer `[1, 2, 3]` (capacity 10) with arrival
batches `[4]` then `[5]` landing mid-flush, where odd records persist and
even records fail, flushes 3 records and requeues `[2, 4]` in order. -/
theorem flush_persists_and_requeues_failed_witness :
    ({ buf := [1, 2, 3], dropped := 0, bufferEnabled := true, maxlen := 10 }
        : LogBuffer Nat).bufferEnabled = true ∧
    (flush_log_buffer (fun r => decide (r % 2 = 1)) [[4], [5]]
      { buf := [1, 2, 3], dropped := 0, bufferEnabled := true, maxlen := 10 }).1
      = ([1, 2, 3] ++ [[4], [5]].join).countP (fun r => decide (r % 2 = 1)) :=
  ⟨rfl,
   (flush_persists_and_requeues_failed (fun r => decide (r % 2 = 1)) [[4], [5]]
      { buf := [1, 2, 3], dropped := 0, bufferEnabled := true, maxlen := 10 }
      rfl (by decide) (by decide) (by decide)).1⟩

/-! ## Hashing and normalization (`app/utils/hashing.py`) -/

/-- Python `str.strip()` whitespace (the ASCII part: space, tab, newline,
carriage return, vertical tab, form feed). -/
def pyIsSpace (c : Char) : Bool :=
  c = ' ' || c = '\t' || c = '\n' || c = '\r' ||
  c = Char.ofNat 11 || c = Char.ofNat 12

/-- Drop trailing characters satisfying `p`. -/
def dropTrailingWhile (p : Char → Bool) (l : List Char) : List Char :=
  (l.reverse.dropWhile p).reverse

/-- Python `str.strip()`: remove leading and trailing whitespace. -/
def pyStrip (s : String) : String :=
  ⟨dropTrailingWhile pyIsSpace (s.toList.dropWhile pyIsSpace)⟩

/-- Python `str.lower()` on an ASCII character. -/
def pyLowerChar (c : Char) : Char :=
  if 'A' ≤ c ∧ c ≤ 'Z' then Char.ofNat (c.toNat + 32) else c

/-- `normalize_text`: `text.strip().lower()`. -/
def normalize_text (t : String) : String :=
  ⟨(pyStrip t).toList.map pyLowerChar⟩

/-- The JSON string escaping performed by `json.dumps` for the quote and
backslash characters (the inputs in this development are printable ASCII,
so the control/non-ASCII escapes of `ensure_ascii` never fire). -/
def jsonEscapeChar (c : Char) : List Char :=
  if c = '"' then ['\\', '"'] else if c = '\\' then ['\\', '\\'] else [c]

/-- `json.dumps({"text": t}, sort_keys=True, ensure_ascii=True)`: the
canonical serialized payload hashed by `hash_input({"text": t})`. -/
def json_dumps_text (t : String) : String :=
  ⟨("\x7b\"text\": \"".toList ++ (t.toList.map jsonEscapeChar).join
    ++ "\"\x7d".toList)⟩

/-- `hash_input({"text": t})`.  The SHA-256 digest step is modelled by the
serialized payload itself: the pipeline uses the digest only as a cache key
compared for equality, and SHA-256 is injective for that purpose, so
distinct payloads give distinct keys and equal payloads equal keys. -/
def hash_input (t : String) : String :=
  json_dumps_text t

/-! ## Request validation (`app/models/schemas.py`) -/

/-- `InferenceRequest` acceptance: pydantic first enforces the field
constraints `min_length=1, max_length=10000` on the raw (untrimmed) text,
then the `validate_text` validator rejects text that is empty after
`strip()`.  Python `len` counts code points, as `String.length` does. -/
def inferenceRequest_accepts (t : String) : Bool :=
  decide (1 ≤ t.length) && decide (t.length ≤ 10000) &&
  decide (pyStrip t ≠ "")

lemma dropWhile_replicate_succ_append (p : Char → Bool) (c : Char)
    (hc : p c = false) (n : Nat) (l : List Char) :
    List.dropWhile p (List.replicate (n + 1) c ++ l)
      = List.replicate (n + 1) c ++ l := by
  rw [List.replicate_succ, List.cons_append, List.dropWhile_cons_of_neg
    (by rw [hc]; exact Bool.false_ne_true)]

lemma pyStrip_a_replicate_space (n : Nat) :
    pyStrip ⟨List.replicate (n + 1) 'a' ++ [' ']⟩
      = ⟨List.replicate (n + 1) 'a'⟩ := by
  unfold pyStrip dropTrailingWhile
  have htol : (⟨List.replicate (n + 1) 'a' ++ [' ']⟩ : String).toList
      = List.replicate (n + 1) 'a' ++ [' '] := rfl
  rw [htol, dropWhile_replicate_succ_append pyIsSpace 'a' (by decide)]
  rw [List.reverse_append, List.reverse_replicate]
  have h1 : ([' '] : List Char).reverse = [' '] := rfl
  rw [h1]
  have h2 : List.dropWhile pyIsSpace ([' '] ++ List.replicate (n + 1) 'a')
      = List.replicate (n + 1) 'a' := by
    rw [List.singleton_append, List.dropWhile_cons_of_pos (by decide)]
    have h3 := dropWhile_replicate_succ_append pyIsSpace 'a' (by decide) n []
    simpa using h3
  rw [h2, List.reverse_replicate]

/-- C9 counterexample: the text of 10,000 letters `a` followed by one
trailing space has untrimmed length 10,001 and is rejected by the schema,
even though its trimmed length (10,000) is within the claimed bounds —
pydantic's `min_length`/`max_length` apply to the raw text, before the
`strip()` check. -/
theorem overlength_untrimmed_text_rejected :
    inferenceRequest_accepts ⟨List.replicate 10000 'a' ++ [' ']⟩ = false ∧
    1 ≤ (pyStrip ⟨List.replicate 10000 'a' ++ [' ']⟩).length ∧
    (pyStrip ⟨List.replicate 10000 'a' ++ [' ']⟩).length ≤ 10000 := by
  have hstrip := pyStrip_a_replicate_space 9999
  have hslen : (pyStrip ⟨List.replicate 10000 'a' ++ [' ']⟩).length = 10000 := by
    rw [show (9999 : Nat) + 1 = 10000 from rfl] at hstrip
    rw [hstrip]
    show (List.replicate 10000 'a').length = 10000
    rw [List.length_replicate]
  refine ⟨?_, by omega, by omega⟩
  have hlen : (⟨List.replicate 10000 'a' ++ [' ']⟩ : String).length = 10001 := by
    show (List.replicate 10000 'a' ++ [' ']).length = 10001
    rw [List.length_append, List.length_replicate]
    rfl
  unfold inferenceRequest_accepts
  rw [hlen]
  rw [show (decide ((10001 : Nat) ≤ 10000) : Bool) = false from rfl]
  rw [Bool.and_false, Bool.false_and]

/-- C9 (amended): a request is accepted iff its untrimmed text has length
between 1 and 10,000 characters and the text is not whitespace-only after
trimming; in particular whitespace-only text is rejected, and text with a
non-empty trimmed core is accepted whenever the total untrimmed length is
at most 10,000. -/
theorem inference_request_validation (t : String) :
    (inferenceRequest_accepts t = true ↔
      1 ≤ t.length ∧ t.length ≤ 10000 ∧ pyStrip t ≠ "") ∧
    (pyStrip t = "" → inferenceRequest_accepts t = false) ∧
    (pyStrip t ≠ "" → t.length ≤ 10000 → inferenceRequest_accepts t = true) := by
  have hiff : inferenceRequest_accepts t = true ↔
      1 ≤ t.length ∧ t.length ≤ 10000 ∧ pyStrip t ≠ "" := by
    unfold inferenceRequest_accepts
    simp [and_assoc]
  refine ⟨hiff, ?_, ?_⟩
  · intro h
    unfold inferenceRequest_accepts
    simp [h]
  · intro hne hlen
    have h1 : 1 ≤ t.length := by
      by_contra h0
      apply hne
      obtain ⟨l⟩ := t
      have hl : l = [] := by
        have : l.length = 0 := by
          have : (String.mk l).length = l.length := rfl
          omega
        exact List.length_eq_zero.mp this
      subst hl
      rfl
    exact hiff.mpr ⟨h1, hlen, hne⟩

/-- Witness for C9's amended statement: text with surrounding whitespace and
a non-empty core is accepted; whitespace-only text is rejected. -/
theorem inference_request_validation_witness :
    pyStrip "   " = "" ∧ pyStrip "  Hi  " ≠ "" ∧
    inferenceRequest_accepts "  Hi  " = true ∧
    inferenceRequest_accepts "   " = false :=
  ⟨by decide, by decide,
   (inference_request_validation "  Hi  ").2.2 (by decide) (by decide),
   (inference_request_validation "   ").2.1 (by decide)⟩

/-! ## Python exception kinds and the dynamic calling convention -/

/-- The exception kinds that matter to the services. -/
inductive PErr where
  | connectionError   -- redis.exceptions.ConnectionError
  | timeoutError      -- redis.exceptions.TimeoutError
  | operationalError  -- sqlalchemy.exc.OperationalError
  | sqlalchemyError   -- sqlalchemy.exc.SQLAlchemyError
  | typeError         -- TypeError, e.g. calling a coroutine object
  | circuitOpenError  -- CircuitBreakerOpenError
  | runtimeError      -- RuntimeError
  | otherError
deriving DecidableEq, Repr

/-- The retryable set of the Redis adapters:
`exceptions=(ConnectionError, TimeoutError)`. -/
def redisRetryable : PErr → Bool
  | .connectionError => true
  | .timeoutError => true
  | _ => false

/-- The retryable set of the database logger:
`exceptions=(OperationalError, SQLAlchemyError)`. -/
def dbRetryable : PErr → Bool
  | .operationalError => true
  | .sqlalchemyError => true
  | _ => false

/-- A Python value passed where `CircuitBreaker.call` expects its `func`
argument, over a mutable store of type `σ`: either an actual async function,
or a *coroutine object* — which is what every service call site produces by
passing `retry_with_backoff(op, ..., exceptions=retryable)` (already
invoked, hence a coroutine) instead of a callable.  The coroutine's retry
configuration and underlying operation are carried for reference, but a
coroutine object is not callable, so they never run. -/
inductive PyCallable (σ α : Type) where
  | fn (f : σ → Except PErr α × σ)
  | coroObj (retryable : PErr → Bool) (op : σ → Except PErr α × σ)

/-- `func(*args, **kwargs)` inside `CircuitBreaker.call`: a function runs;
calling a coroutine object raises
`TypeError: 'coroutine' object is not callable` before anything executes. -/
def callPy : PyCallable σ α → σ → Except PErr α × σ
  | .fn f, st => f st
  | .coroObj _ _, st => (.error .typeError, st)

/-- `CircuitBreaker.call`: when breakers are globally disabled, invoke
`func` directly; otherwise evaluate the time-based transitions, short-circuit
an OPEN breaker to the fallback (or raise `CircuitBreakerOpenError` without
one), and otherwise invoke `func`, recording success or failure and
re-raising any exception.  Returns (outcome, breaker, store). -/
def breakerCall (enabled : Bool) (now : Int) (b : Breaker)
    (func : PyCallable σ α) (fallback : Option (σ → α × σ)) (st : σ) :
    Except PErr α × Breaker × σ :=
  if !enabled then
    let r := callPy func st
    (r.1, b, r.2)
  else
    let b1 := updateState now b
    match b1.state with
    | .opened =>
      match fallback with
      | some fb =>
        let r := fb st
        (.ok r.1, b1, r.2)
      | none => (.error .circuitOpenError, b1, st)
    | _ =>
      match callPy func st with
      | (.ok r, st') => (.ok r, onSuccess b1, st')
      | (.error e, st') => (.error e, onFailure now b1, st')

/-! ## Redis service (`app/services/redis_service.py`) -/

/-- The deterministic response fields of `InferenceResponse`.  `worker_id`
is a process constant and `processing_time_ms` is wall-clock noise, so they
are not modelled; JSON serialization of the response record is injective,
so byte-identity of stored payloads is structural equality here. -/
structure InferResponse (α : Type) where
  prediction : α
  cache_hit : Bool
  idempotency_hit : Bool
deriving DecidableEq, Repr

/-- The Redis-visible state of `RedisService`: the `cache:`-prefixed and
`idempotency:`-prefixed key spaces are disjoint by construction, so they
are two association lists (values typed by what the orchestrator stores,
serialization being injective; TTLs are written and never read back), plus
the service's circuit breaker and whether `self.client` is connected. -/
structure RedisState (α : Type) where
  cacheStore : List (String × α)
  idemStore : List (String × InferResponse α)
  breaker : Breaker
  connected : Bool
deriving DecidableEq, Repr

/-- `RedisService.get_cache`: disabled-or-disconnected short-circuits to
`None`; otherwise `circuit_breaker.call` receives the coroutine object
`retry_with_backoff(_get, ...)` as `func` plus the cache-miss fallback, and
the outer `try/except` absorbs every exception into a `None` miss.
`clientRes` is what the underlying `self.client.get` call would do if it
ran (`.ok` = reachable Redis, `.error e` = it raises `e`). -/
def get_cache (cacheEnabled cbEnabled : Bool) (now : Int)
    (clientRes : Except PErr Unit) (key : String) (s : RedisState α) :
    Option α × RedisState α :=
  if !cacheEnabled || !s.connected then (none, s)
  else
    let call := breakerCall cbEnabled now s.breaker
      (.coroObj redisRetryable (fun st =>
        match clientRes with
        | .ok _ => (.ok (st.lookup key), st)
        | .error e => (.error e, st)))
      (some fun st => (none, st)) s.cacheStore
    let s' := { s with breaker := call.2.1, cacheStore := call.2.2 }
    match call.1 with
    | .ok r => (r, s')
    | .error _ => (none, s')

/-- `RedisService.set_cache`: same shape as `get_cache`; `_set` would
`SETEX` the value (modelled by a shadowing prepend) and return `True`; the
fallback and the outer `try/except` produce `False`. -/
def set_cache (cacheEnabled cbEnabled : Bool) (now : Int)
    (clientRes : Except PErr Unit) (key : String) (value : α)
    (s : RedisState α) : Bool × RedisState α :=
  if !cacheEnabled || !s.connected then (false, s)
  else
    let call := breakerCall cbEnabled now s.breaker
      (.coroObj redisRetryable (fun st =>
        match clientRes with
        | .ok _ => (.ok true, (key, value) :: st)
        | .error e => (.error e, st)))
      (some fun st => (false, st)) s.cacheStore
    let s' := { s with breaker := call.2.1, cacheStore := call.2.2 }
    match call.1 with
    | .ok r => (r, s')
    | .error _ => (false, s')

/-- `RedisService.check_idempotency`: like `get_cache` against the
`idempotency:` key space. -/
def check_idempotency (idemEnabled cbEnabled : Bool) (now : Int)
    (clientRes : Except PErr Unit) (key : String) (s : RedisState α) :
    Option (InferResponse α) × RedisState α :=
  if !idemEnabled || !s.connected then (none, s)
  else
    let call := breakerCall cbEnabled now s.breaker
      (.coroObj redisRetryable (fun st =>
        match clientRes with
        | .ok _ => (.ok (st.lookup key), st)
        | .error e => (.error e, st)))
      (some fun st => (none, st)) s.idemStore
    let s' := { s with breaker := call.2.1, idemStore := call.2.2 }
    match call.1 with
    | .ok r => (r, s')
    | .error _ => (none, s')

/-- `RedisService.store_idempotency`: like `set_cache` against the
`idempotency:` key space. -/
def store_idempotency (idemEnabled cbEnabled : Bool) (now : Int)
    (clientRes : Except PErr Unit) (key : String) (resp : InferResponse α)
    (s : RedisState α) : Bool × RedisState α :=
  if !idemEnabled || !s.connected then (false, s)
  else
    let call := breakerCall cbEnabled now s.breaker
      (.coroObj redisRetryable (fun st =>
        match clientRes with
        | .ok _ => (.ok true, (key, resp) :: st)
        | .error e => (.error e, st)))
      (some fun st => (false, st)) s.idemStore
    let s' := { s with breaker := call.2.1, idemStore := call.2.2 }
    match call.1 with
    | .ok r => (r, s')
    | .error _ => (false, s')

/-! ## Database service (`app/services/database_service.py`) -/

/-- The state of `DatabaseService`: the durable `inference_logs` rows, the
fallback buffer, the service's circuit breaker, and — as a ghost trace for
specification only — the argument of every `log_inference_request`
invocation (what the orchestrator asked to be audit-logged, independent of
whether it persisted). -/
structure DbState (ρ : Type) where
  dbRows : List ρ
  logBuf : LogBuffer ρ
  breaker : Breaker
  auditCalls : List ρ
deriving DecidableEq, Repr

/-- `DatabaseService.log_inference_request`: `circuit_breaker.call` receives
the coroutine object `retry_with_backoff(_log, ...)` plus the buffering
fallback `_fallback`; `_log` would append a durable row; the outer
`try/except` turns any exception into `False`. -/
def log_inference_request (cbEnabled : Bool) (now : Int)
    (clientRes : Except PErr Unit) (rec : ρ) (d : DbState ρ) :
    Bool × DbState ρ :=
  let call := breakerCall cbEnabled now d.breaker
    (.coroObj dbRetryable (fun st =>
      match clientRes with
      | .ok _ => (.ok true, (st.1 ++ [rec], st.2))
      | .error e => (.error e, st)))
    (some fun st => (false, (st.1, fallbackEnqueue st.2 rec)))
    (d.dbRows, d.logBuf)
  let d' := { d with
              breaker := call.2.1
              dbRows := call.2.2.1
              logBuf := call.2.2.2
              auditCalls := d.auditCalls ++ [rec] }
  match call.1 with
  | .ok r => (r, d')
  | .error _ => (false, d')

/-! ## Request orchestration (`app/api/routes.py`, `infer`) -/

/-- The audit-log fields of `log_inference_request` that the claims talk
about (the remaining fields — ids, timings, lengths, error text — are
threaded verbatim from the request context). -/
structure AuditRec where
  textHash : String
  cacheHit : Bool
  idempotencyHit : Bool
  success : Bool
deriving DecidableEq, Repr

/-- The state the orchestrator touches: the Redis service, the database
service, and — ghost, for specification — how many times the model
collaborator has been invoked. -/
structure OrchState (α : Type) where
  redis : RedisState α
  db : DbState AuditRec
  modelCalls : Nat
deriving DecidableEq, Repr

/-- The tail of `infer` shared by the cache-hit and model paths: store the
response for the idempotency token if one was supplied (best-effort), emit
the success audit-log record, and return the response. -/
def finishResponse (idemEnabled cbEnabled : Bool) (now : Int)
    (redisRes dbRes : Except PErr Unit) (token : Option String)
    (input_hash : String) (resp : InferResponse α) (s : OrchState α) :
    Except PErr (InferResponse α) × OrchState α :=
  let redis1 :=
    match token with
    | some k =>
      if idemEnabled then
        (store_idempotency idemEnabled cbEnabled now redisRes k resp s.redis).2
      else s.redis
    | none => s.redis
  let logRec : AuditRec :=
    { textHash := input_hash
      cacheHit := resp.cache_hit
      idempotencyHit := resp.idempotency_hit
      success := true }
  let db1 := (log_inference_request cbEnabled now dbRes logRec s.db).2
  (.ok resp, { s with redis := redis1, db := db1 })

/-- Steps 2-6 of `infer` (after the idempotency-replay check): compute
`input_hash = hash_input({"text": body.text})` from the *raw* request text,
consult the cache, on a miss invoke the model (a model exception is caught
by the request-level handler: failure audit log, error surfaced) and
best-effort cache the result, then finish. -/
def inferMain (cacheEnabled idemEnabled cbEnabled : Bool) (now : Int)
    (redisRes dbRes : Except PErr Unit)
    (model : String → Except PErr α) (token : Option String)
    (text : String) (s : OrchState α) :
    Except PErr (InferResponse α) × OrchState α :=
  let input_hash := hash_input text
  let gc :=
    if cacheEnabled then
      get_cache cacheEnabled cbEnabled now redisRes input_hash s.redis
    else (none, s.redis)
  let s1 := { s with redis := gc.2 }
  match gc.1 with
  | some v =>
    let resp : InferResponse α :=
      { prediction := v, cache_hit := true, idempotency_hit := false }
    finishResponse idemEnabled cbEnabled now redisRes dbRes token
      input_hash resp s1
  | none =>
    match model text with
    | .error e =>
      let logRec : AuditRec :=
        { textHash := input_hash
          cacheHit := false
          idempotencyHit := false
          success := false }
      let db1 := (log_inference_request cbEnabled now dbRes logRec s1.db).2
      (.error e, { s1 with db := db1 })
    | .ok p =>
      let s2 := { s1 with modelCalls := s1.modelCalls + 1 }
      let redis2 :=
        if cacheEnabled then
          (set_cache cacheEnabled cbEnabled now redisRes input_hash p s2.redis).2
        else s2.redis
      let resp : InferResponse α :=
        { prediction := p, cache_hit := false, idempotency_hit := false }
      finishResponse idemEnabled cbEnabled now redisRes dbRes token
        input_hash resp { s2 with redis := redis2 }

/-- The `/infer` handler: if an idempotency token is supplied and
idempotency is enabled, check the idempotency store; on a hit, return the
stored response with `idempotency_hit` overwritten to `True` and audit-log
`cache_hit=False, idempotency_hit=True` — the model is not invoked.
Otherwise run the cache-aside pipeline (`inferMain`). -/
def infer (cacheEnabled idemEnabled cbEnabled : Bool) (now : Int)
    (redisRes dbRes : Except PErr Unit)
    (model : String → Except PErr α) (token : Option String)
    (text : String) (s : OrchState α) :
    Except PErr (InferResponse α) × OrchState α :=
  match token with
  | some k =>
    if idemEnabled then
      let ci := check_idempotency idemEnabled cbEnabled now redisRes k s.redis
      let s1 := { s with redis := ci.2 }
      match ci.1 with
      | some stored =>
        let resp := { stored with idempotency_hit := true }
        let logRec : AuditRec :=
          { textHash := hash_input text
            cacheHit := false
            idempotencyHit := true
            success := true }
        let db1 := (log_inference_request cbEnabled now dbRes logRec s1.db).2
        (.ok resp, { s1 with db := db1 })
      | none =>
        inferMain cacheEnabled idemEnabled cbEnabled now redisRes dbRes
          model token text s1
    else
      inferMain cacheEnabled idemEnabled cbEnabled now redisRes dbRes
        model token text s
  | none =>
    inferMain cacheEnabled idemEnabled cbEnabled now redisRes dbRes
      model token text s

/-- Initial system state: empty Redis, empty database, fresh breakers with
the configured defaults (`failure_threshold=5, timeout_seconds=60,
half_open_attempts=3`), log buffer capacity 1000, no model calls. -/
def initOrch : OrchState String :=
  { redis :=
      { cacheStore := []
        idemStore := []
        breaker := Breaker.init 5 60 3
        connected := true }
    db :=
      { dbRows := []
        logBuf := LogBuffer.init 1000
        breaker := Breaker.init 5 60 3
        auditCalls := [] }
    modelCalls := 0 }

lemma breakerCall_coroObj_cases (enabled : Bool) (now : Int) (b : Breaker)
    (rb : PErr → Bool) (op : σ → Except PErr α × σ) (fb : σ → α × σ) (st : σ) :
    breakerCall enabled now b (.coroObj rb op) (some fb) st
        = (.error .typeError, b, st) ∨
    breakerCall enabled now b (.coroObj rb op) (some fb) st
        = (.ok (fb st).1, updateState now b, (fb st).2) ∨
    breakerCall enabled now b (.coroObj rb op) (some fb) st
        = (.error .typeError, onFailure now (updateState now b), st) := by
  unfold breakerCall
  cases enabled with
  | false => left; rfl
  | true =>
    simp only [Bool.not_true, Bool.false_eq_true, if_false]
    cases h : (updateState now b).state with
    | opened => right; left; rfl
    | closed => right; right; rfl
    | halfOpen => right; right; rfl

lemma get_cache_always_miss (ce cb : Bool) (now : Int)
    (res : Except PErr Unit) (key : String) (s : RedisState α) :
    (get_cache ce cb now res key s).1 = none ∧
    (get_cache ce cb now res key s).2.cacheStore = s.cacheStore ∧
    (get_cache ce cb now res key s).2.idemStore = s.idemStore ∧
    (get_cache ce cb now res key s).2.connected = s.connected := by
  unfold get_cache
  split
  · exact ⟨rfl, rfl, rfl, rfl⟩
  · rcases breakerCall_coroObj_cases cb now s.breaker redisRetryable
      (fun st => match res with
        | .ok _ => (.ok (st.lookup key), st)
        | .error e => (.error e, st))
      (fun st => (none, st)) s.cacheStore with h | h | h <;>
      simp [h]

lemma check_idempotency_always_miss (ie cb : Bool) (now : Int)
    (res : Except PErr Unit) (key : String) (s : RedisState α) :
    (check_idempotency ie cb now res key s).1 = none ∧
    (check_idempotency ie cb now res key s).2.cacheStore = s.cacheStore ∧
    (check_idempotency ie cb now res key s).2.idemStore = s.idemStore ∧
    (check_idempotency ie cb now res key s).2.connected = s.connected := by
  unfold check_idempotency
  split
  · exact ⟨rfl, rfl, rfl, rfl⟩
  · rcases breakerCall_coroObj_cases cb now s.breaker redisRetryable
      (fun st => match res with
        | .ok _ => (.ok (st.lookup key), st)
        | .error e => (.error e, st))
      (fun st => (none, st)) s.idemStore with h | h | h <;>
      simp [h]

lemma set_cache_never_stores (ce cb : Bool) (now : Int)
    (res : Except PErr Unit) (key : String) (v : α) (s : RedisState α) :
    (set_cache ce cb now res key v s).1 = false ∧
    (set_cache ce cb now res key v s).2.cacheStore = s.cacheStore ∧
    (set_cache ce cb now res key v s).2.idemStore = s.idemStore ∧
    (set_cache ce cb now res key v s).2.connected = s.connected := by
  unfold set_cache
  split
  · exact ⟨rfl, rfl, rfl, rfl⟩
  · rcases breakerCall_coroObj_cases cb now s.breaker redisRetryable
      (fun st => match res with
        | .ok _ => (.ok true, (key, v) :: st)
        | .error e => (.error e, st))
      (fun st => (false, st)) s.cacheStore with h | h | h <;>
      simp [h]

lemma store_idempotency_never_stores (ie cb : Bool) (now : Int)
    (res : Except PErr Unit) (key : String) (r : InferResponse α)
    (s : RedisState α) :
    (store_idempotency ie cb now res key r s).1 = false ∧
    (store_idempotency ie cb now res key r s).2.cacheStore = s.cacheStore ∧
    (store_idempotency ie cb now res key r s).2.idemStore = s.idemStore ∧
    (store_idempotency ie cb now res key r s).2.connected = s.connected := by
  unfold store_idempotency
  split
  · exact ⟨rfl, rfl, rfl, rfl⟩
  · rcases breakerCall_coroObj_cases cb now s.breaker redisRetryable
      (fun st => match res with
        | .ok _ => (.ok true, (key, r) :: st)
        | .error e => (.error e, st))
      (fun st => (false, st)) s.idemStore with h | h | h <;>
      simp [h]

lemma log_request_never_persists (cb : Bool) (now : Int)
    (res : Except PErr Unit) (rec : ρ) (d : DbState ρ) :
    (log_inference_request cb now res rec d).1 = false ∧
    (log_inference_request cb now res rec d).2.dbRows = d.dbRows ∧
    (log_inference_request cb now res rec d).2.auditCalls
      = d.auditCalls ++ [rec] := by
  unfold log_inference_request
  rcases breakerCall_coroObj_cases cb now d.breaker dbRetryable
      (fun st => match res with
        | .ok _ => (.ok true, (st.1 ++ [rec], st.2))
        | .error e => (.error e, st))
      (fun st => (false, (st.1, fallbackEnqueue st.2 rec)))
      (d.dbRows, d.logBuf) with h | h | h <;>
    simp [h]

lemma finishResponse_ok (ie cb : Bool) (now : Int)
    (rres dres : Except PErr Unit) (token : Option String)
    (ih : String) (resp : InferResponse α) (s : OrchState α) :
    (finishResponse ie cb now rres dres token ih resp s).1 = .ok resp := by
  unfold finishResponse
  rfl

lemma inferMain_ok_of_model_ok (ce ie cb : Bool) (now : Int)
    (rres dres : Except PErr Unit) (mo : String → α)
    (token : Option String) (text : String) (s : OrchState α) :
    ∃ r, (inferMain ce ie cb now rres dres (fun t => .ok (mo t))
            token text s).1 = .ok r := by
  unfold inferMain
  have hgc : (if ce then
      get_cache ce cb now rres (hash_input text) s.redis
    else (none, s.redis)).1 = none := by
    split
    · exact (get_cache_always_miss ce cb now rres (hash_input text) s.redis).1
    · rfl
  simp only [hgc]
  exact ⟨_, finishResponse_ok _ _ _ _ _ _ _ _ _⟩

lemma inferMain_error_of_model_error (ce ie cb : Bool) (now : Int)
    (rres dres : Except PErr Unit) (e : PErr)
    (token : Option String) (text : String) (s : OrchState α) :
    (inferMain ce ie cb now rres dres
      (fun _ => (.error e : Except PErr α)) token text s).1 = .error e := by
  unfold inferMain
  have hgc : (if ce then
      get_cache ce cb now rres (hash_input text) s.redis
    else (none, s.redis)).1 = none := by
    split
    · exact (get_cache_always_miss ce cb now rres (hash_input text) s.redis).1
    · rfl
  simp only [hgc]

lemma infer_result_of_model (ce ie cb : Bool) (now : Int)
    (rres dres : Except PErr Unit)
    (token : Option String) (text : String) (s : OrchState α) :
    (∀ mo : String → α,
      ∃ r, (infer ce ie cb now rres dres (fun t => .ok (mo t))
              token text s).1 = .ok r) ∧
    (∀ e : PErr,
      (infer ce ie cb now rres dres (fun _ => (.error e : Except PErr α))
          token text s).1 = .error e) := by
  constructor
  · intro mo
    unfold infer
    cases token with
    | none =>
      exact inferMain_ok_of_model_ok ce ie cb now rres dres mo none text s
    | some k =>
      cases ie with
      | false =>
        simp only [Bool.false_eq_true, if_false]
        exact inferMain_ok_of_model_ok ce false cb now rres dres mo (some k) text s
      | true =>
        simp only [if_true]
        have hci := (check_idempotency_always_miss true cb now rres k s.redis).1
        simp only [hci]
        exact inferMain_ok_of_model_ok ce true cb now rres dres mo (some k) text _
  · intro e
    unfold infer
    cases token with
    | none =>
      exact inferMain_error_of_model_error ce ie cb now rres dres e none text s
    | some k =>
      cases ie with
      | false =>
        simp only [Bool.false_eq_true, if_false]
        exact inferMain_error_of_model_error ce false cb now rres dres e (some k) text s
      | true =>
        simp only [if_true]
        have hci := (check_idempotency_always_miss true cb now rres k s.redis).1
        simp only [hci]
        exact inferMain_error_of_model_error ce true cb now rres dres e (some k) text _

/-- C8: store failures never propagate to the request pipeline's caller.
For every behavior of the underlying store operation (`res` and `dres`
ranging over success and every exception kind): `get_cache` and
`check_idempotency` return a `None` miss, `set_cache` and
`store_idempotency` return `False` and leave the store untouched,
`log_inference_request` returns `False` without raising and persists no
row; and at the request level, a model that succeeds always yields an `ok`
response (no store failure surfaces), while a model failure is exactly the
error the request surfaces. -/
theorem store_failures_absorbed {α ρ : Type} (ce ie cb : Bool) (now : Int)
    (res dres : Except PErr Unit) (key tok : String) (v : α)
    (resp : InferResponse α) (s : RedisState α) (rec : ρ) (d : DbState ρ)
    (token : Option String) (text : String) (os : OrchState α) :
    (get_cache ce cb now res key s).1 = none ∧
    (check_idempotency ie cb now res tok s).1 = none ∧
    (set_cache ce cb now res key v s).1 = false ∧
    (set_cache ce cb now res key v s).2.cacheStore = s.cacheStore ∧
    (store_idempotency ie cb now res tok resp s).1 = false ∧
    (store_idempotency ie cb now res tok resp s).2.idemStore = s.idemStore ∧
    (log_inference_request cb now res rec d).1 = false ∧
    (log_inference_request cb now res rec d).2.dbRows = d.dbRows ∧
    (∀ mo : String → α, ∃ r,
      (infer ce ie cb now res dres (fun t => .ok (mo t))
          token text os).1 = .ok r) ∧
    (∀ e : PErr,
      (infer ce ie cb now res dres (fun _ => (.error e : Except PErr α))
          token text os).1 = .error e) :=
  ⟨(get_cache_always_miss ce cb now res key s).1,
   (check_idempotency_always_miss ie cb now res tok s).1,
   (set_cache_never_stores ce cb now res key v s).1,
   (set_cache_never_stores ce cb now res key v s).2.1,
   (store_idempotency_never_stores ie cb now res tok resp s).1,
   (store_idempotency_never_stores ie cb now res tok resp s).2.2.1,
   (log_request_never_persists cb now res rec d).1,
   (log_request_never_persists cb now res rec d).2.1,
   (infer_result_of_model ce ie cb now res dres token text os).1,
   (infer_result_of_model ce ie cb now res dres token text os).2⟩

/-- C1 (evaluation at the failing input): two sequential requests with text
"This is a great product!", no idempotency token, from the empty initial
state.  Both requests return `cache_hit=false`, the model is invoked twice
(not once), and the cache ends up empty — every cache access dies inside
`CircuitBreaker.call` on `TypeError: 'coroutine' object is not callable`
and is absorbed as a miss, so the result is never stored and the second
request never hits.  Moreover the key the code attempts,
`hash_input({"text": <raw text>})`, differs from the claimed
`hash_input({"text": <normalized text>})`. -/
theorem cache_aside_scenario_diverges :
    let m : String → Except PErr String := fun _ => .ok "positive"
    let t := "This is a great product!"
    let r1 := infer true true true 1000 (.ok ()) (.ok ()) m none t initOrch
    let r2 := infer true true true 1000 (.ok ()) (.ok ()) m none t r1.2
    r1.1 = .ok { prediction := "positive", cache_hit := false,
                 idempotency_hit := false } ∧
    r2.1 = .ok { prediction := "positive", cache_hit := false,
                 idempotency_hit := false } ∧
    r2.2.modelCalls = 2 ∧
    r2.2.redis.cacheStore = [] ∧
    hash_input "This is a great product!"
      ≠ hash_input (normalize_text "This is a great product!") :=
  ⟨rfl, rfl, rfl, rfl, by decide⟩

/-- C2 (evaluation at the failing input): two sequential requests bearing
the same idempotency token from the empty initial state.  The idempotency
store is never written and never hit (each access dies on
`TypeError: 'coroutine' object is not callable` and is absorbed as a miss),
so the second request invokes the model again, returns
`idempotency_hit=false`, and is audit-logged with `idempotencyHit=false` —
not the replay the claim describes. -/
theorem idempotent_replay_diverges :
    let m : String → Except PErr String := fun _ => .ok "positive"
    let t := "This is a great product!"
    let tok : Option String := some "tok-1"
    let r1 := infer true true true 1000 (.ok ()) (.ok ()) m tok t initOrch
    let r2 := infer true true true 1000 (.ok ()) (.ok ()) m tok t r1.2
    r1.1 = .ok { prediction := "positive", cache_hit := false,
                 idempotency_hit := false } ∧
    r2.1 = .ok { prediction := "positive", cache_hit := false,
                 idempotency_hit := false } ∧
    r2.2.modelCalls = 2 ∧
    r2.2.redis.idemStore = [] ∧
    r2.2.db.auditCalls.map (fun r => (r.cacheHit, r.idempotencyHit))
      = [(false, false), (false, false)] :=
  ⟨rfl, rfl, rfl, rfl, rfl⟩

end Falcon
